import Mathlib

/-
Verification of the jokes-API request handlers.

The embedded program is the Express application of this repository: an
in-memory list `allJokes` of joke objects (seeded from a bundled JSON
dataset), a module-level counter `nextJokeId` starting at 10000000, and
one handler per HTTP route.  Each handler below is a direct translation
of the corresponding JavaScript function.  JSON objects are modelled as
association lists of string keys to primitive values; JavaScript
property read and property assignment become `JsObj.get` and
`JsObj.set`.  A handler that can throw a runtime TypeError is modelled
in `Except Unit`; all others are total functions from the server state
(and the request data) to a response, possibly paired with the updated
state.
-/

namespace JokesApi

/-- Primitive JSON values occurring in joke objects: numbers (ids) and
strings (type, setup, punchline, timestamp). -/
inductive JsVal where
  | num (n : Int)
  | str (s : String)
  deriving DecidableEq, Repr

/-- A JavaScript object as parsed from a JSON body: an ordered
association list of fields.  Objects built by the program never carry a
duplicate key. -/
abbrev JsObj := List (String × JsVal)

/-- JavaScript property read `o[k]`: the value of the first field named
`k`, or `none` for `undefined`. -/
def JsObj.get : JsObj → String → Option JsVal
  | [], _ => none
  | (k', v) :: rest, k => if k' = k then some v else JsObj.get rest k

/-- JavaScript property assignment `o[k] = v`: overwrites the first
field named `k` in place, or appends a new field when `k` is absent
(JavaScript keeps insertion order for non-index string keys). -/
def JsObj.set : JsObj → String → JsVal → JsObj
  | [], k, v => [(k, v)]
  | (k', v') :: rest, k, v =>
      if k' = k then (k, v) :: rest else (k', v') :: JsObj.set rest k v

/-- `charsStartWith hay needle`: `needle` begins `hay` (both as char lists). -/
def charsStartWith : List Char → List Char → Bool
  | _, [] => true
  | [], _ :: _ => false
  | a :: as, b :: bs => a == b && charsStartWith as bs

/-- `charsContain hay needle`: `needle` occurs contiguously in `hay`. -/
def charsContain : List Char → List Char → Bool
  | [], needle => needle.isEmpty
  | a :: as, needle => charsStartWith (a :: as) needle || charsContain as needle

/-- Embedding of JavaScript `hay.includes(needle)` on strings:
case-sensitive substring containment. -/
def strContains (hay needle : String) : Bool :=
  charsContain hay.data needle.data

/-- Value of a single character as a digit (decimal or hex), as used by
JavaScript `parseInt`. -/
def digitValue (c : Char) : Option Nat :=
  if '0' ≤ c ∧ c ≤ '9' then some (c.toNat - '0'.toNat)
  else if 'a' ≤ c ∧ c ≤ 'f' then some (c.toNat - 'a'.toNat + 10)
  else if 'A' ≤ c ∧ c ≤ 'F' then some (c.toNat - 'A'.toNat + 10)
  else none

/-- Reads the longest leading run of digits of the given radix,
accumulating their value; `none` when no digit was read at all (the NaN
case of `parseInt`). -/
def parseDigits (radix : Nat) : List Char → Nat → Bool → Option Nat
  | [], acc, seen => if seen then some acc else none
  | c :: cs, acc, seen =>
      match digitValue c with
      | some d =>
          if d < radix then parseDigits radix cs (acc * radix + d) true
          else if seen then some acc else none
      | none => if seen then some acc else none

/-- Embedding of JavaScript `parseInt(s)` (radix unspecified): skip
leading whitespace, optional sign, optional `0x`/`0X` hex marker, then
the longest digit run; `none` models the NaN result. -/
def parseInt (s : String) : Option Int :=
  let cs := s.data.dropWhile Char.isWhitespace
  let signAndRest : Int × List Char :=
    match cs with
    | '-' :: rest => (-1, rest)
    | '+' :: rest => (1, rest)
    | _ => (1, cs)
  let radixAndRest : Nat × List Char :=
    match signAndRest.2 with
    | '0' :: 'x' :: rest => (16, rest)
    | '0' :: 'X' :: rest => (16, rest)
    | _ => (10, signAndRest.2)
  match parseDigits radixAndRest.1 radixAndRest.2 0 false with
  | none => none
  | some n => some (signAndRest.1 * n)

/-- The body of an HTTP response, by shape as the handlers produce it:
plain text via `res.send`, a single joke, a joke array, the
one-element array `[allJokes[0]]` / `[sample(allJokes)]` whose element
may be JSON `null`, and the `outcome`/`message` JSON envelopes (with
the optional `soughtId` diagnostic field). -/
inductive RespBody where
  | text (s : String)
  | joke (j : JsObj)
  | jokeList (js : List JsObj)
  | singletonArray (j : Option JsObj)
  | failure (message : String)
  | failureWithId (message : String) (soughtId : Int)
  | success (message : String)
  deriving DecidableEq, Repr

/-- An HTTP response: status code and body. -/
structure Response where
  status : Nat
  body : RespBody
  deriving DecidableEq, Repr

/-- The mutable server state: the `allJokes` array and the
`nextJokeId` counter (initially 10000000). -/
structure ServerState where
  allJokes : List JsObj
  nextJokeId : Int
  deriving DecidableEq, Repr

/-- The state at process start: `allJokes = [...originalJokesList]`,
`nextJokeId = 10000000`.  The seed dataset (`data/jokesData.json`) is a
parameter throughout. -/
def initialState (originalJokesList : List JsObj) : ServerState :=
  { allJokes := originalJokesList, nextJokeId := 10000000 }

/-- `app.get("/jokes", handleGetAllJokes)`: `res.json(allJokes)`. -/
def handleGetAllJokes (s : ServerState) : Response :=
  { status := 200, body := RespBody.jokeList s.allJokes }

/-- `app.get("/jokes/first", handleGetFirstJoke)`: the main variant;
answers `allJokes[0]` when the array is non-empty and a 404 failure
envelope otherwise. -/
def handleGetFirstJoke (s : ServerState) : Response :=
  if 0 < s.allJokes.length then
    { status := 200, body := RespBody.joke (s.allJokes.getD 0 []) }
  else
    { status := 404, body := RespBody.failure "no jokes in database" }

/-- `handleRequestForFirstJoke` of the `src/index.js` variant:
`res.json([allJokes[0]])` with no emptiness check; on an empty store the
array element is `undefined`, serialized as `[null]`. -/
def handleRequestForFirstJoke (s : ServerState) : Response :=
  { status := 200, body := RespBody.singletonArray s.allJokes.head? }

/-- Strict equality `v === n` between a property value (possibly
`undefined`) and a number, as in `j.id === parseInt(soughtId)`. -/
def jsEqNum (v : Option JsVal) (n : Int) : Bool :=
  match v with
  | some (JsVal.num m) => m == n
  | _ => false

/-- The predicate of `findIndex`/`find` in the id-lookup handlers:
`j.id === parsed` where `parsed` is the `parseInt` result (`none` = NaN,
which strict equality never matches). -/
def jokeIdMatches (parsed : Option Int) (j : JsObj) : Bool :=
  match parsed with
  | none => false
  | some n => jsEqNum (JsObj.get j "id") n

/-- Embedding of `Array.prototype.findIndex` (with the not-found result
-1 modelled as `none`). -/
def findIndexJS (p : JsObj → Bool) : List JsObj → Option Nat
  | [] => none
  | j :: rest => if p j then some 0 else (findIndexJS p rest).map (· + 1)

/-- Embedding of `Array.prototype.find`. -/
def findJS (p : JsObj → Bool) : List JsObj → Option JsObj
  | [] => none
  | j :: rest => if p j then some j else findJS p rest

/-- `app.get("/jokes/:id", handleGetJokeById)`: parses the id with
`parseInt` (400 on NaN), linearly scans for `j.id === soughtId`
(404 with the sought id when absent), else answers the found joke. -/
def handleGetJokeById (s : ServerState) (idParam : Option String) : Response :=
  match parseInt (idParam.getD "") with
  | none =>
      { status := 400, body := RespBody.failure "missing id to search for." }
  | some soughtId =>
      match findJS (jokeIdMatches (some soughtId)) s.allJokes with
      | none =>
          { status := 404,
            body := RespBody.failureWithId "can\x27t find joke with that id." soughtId }
      | some foundJoke => { status := 200, body := RespBody.joke foundJoke }

/-- `app.delete("/jokes/:id", handleDeleteJoke)`: 404 text when the id
parameter is missing, 404 failure envelope when `findIndex` misses,
otherwise `splice` out the found index and answer the removed joke. -/
def handleDeleteJoke (s : ServerState) (idParam : Option String) :
    ServerState × Response :=
  match idParam with
  | none => (s, { status := 404, body := RespBody.text "missing id" })
  | some soughtId =>
      match findIndexJS (jokeIdMatches (parseInt soughtId)) s.allJokes with
      | none =>
          (s, { status := 404, body := RespBody.failure "joke not found" })
      | some indexOfJokeToDelete =>
          let jokeToDelete := s.allJokes.getD indexOfJokeToDelete []
          ({ s with allJokes := s.allJokes.eraseIdx indexOfJokeToDelete },
           { status := 200, body := RespBody.joke jokeToDelete })

/-- `app.delete("/jokes", handleDeleteAllJokes)`: `allJokes.length = 0`,
success envelope. -/
def handleDeleteAllJokes (s : ServerState) : ServerState × Response :=
  ({ s with allJokes := [] },
   { status := 200, body := RespBody.success "all jokes deleted" })

/-- One joke's test in the search filter,
`j.setup.includes(searchTerm) || j.punchline.includes(searchTerm)`:
throws a TypeError (`Except.error ()`) when the accessed property is
not a string (e.g. `undefined.includes`); `||` short-circuits, so the
punchline is only touched when the setup does not match. -/
def jokeSearchTest (searchTerm : String) (j : JsObj) : Except Unit Bool :=
  match JsObj.get j "setup" with
  | some (JsVal.str setup) =>
      if strContains setup searchTerm then Except.ok true
      else
        match JsObj.get j "punchline" with
        | some (JsVal.str punchline) =>
            Except.ok (strContains punchline searchTerm)
        | _ => Except.error ()
  | _ => Except.error ()

/-- `allJokes.filter(...)` with the throwing test: evaluates left to
right, propagating the first thrown TypeError. -/
def filterJokes (searchTerm : String) : List JsObj → Except Unit (List JsObj)
  | [] => Except.ok []
  | j :: rest => do
      let b ← jokeSearchTest searchTerm j
      let tail ← filterJokes searchTerm rest
      pure (if b then j :: tail else tail)

/-- `app.get("/jokes/search", handleJokesSearch)`: 400 when the
`searchTerm` query value is absent or falsy (the empty string),
otherwise the filtered array; `Except.error` models an uncaught
TypeError escaping the handler. -/
def handleJokesSearch (s : ServerState) (searchTerm : Option String) :
    Except Unit Response :=
  match searchTerm with
  | none =>
      Except.ok
        { status := 400, body := RespBody.text "missing searchTerm query parameter" }
  | some t =>
      if t = "" then
        Except.ok
          { status := 400, body := RespBody.text "missing searchTerm query parameter" }
      else do
        let foundJokes ← filterJokes t s.allJokes
        pure { status := 200, body := RespBody.jokeList foundJokes }

/-- `app.get("/jokes/random", handleRequestForRandomJoke)`:
`lodash.sample` is modelled by an externally supplied index `choice`
(uniform among valid indices when the array is non-empty; on an empty
array `sample` yields `undefined`, i.e. `none`). -/
def handleRequestForRandomJoke (s : ServerState) (choice : Nat) : Response :=
  { status := 200, body := RespBody.singletonArray (s.allJokes.get? choice) }

/-- `handleRequestForPOSTJoke`: 400 text when the body is null or
undefined (`none`); otherwise assigns `newJoke.id = nextJokeId++` and
`newJoke.timestamp = new Date() + ""` (the clock string `ts` is a
parameter), pushes the joke and answers it with 201. -/
def handleRequestForPOSTJoke (s : ServerState) (body : Option JsObj) (ts : String) :
    ServerState × Response :=
  match body with
  | none =>
      (s, { status := 400,
            body := RespBody.text "where is your joke! it\x27s not in the body, i think" })
  | some newJoke0 =>
      let id := s.nextJokeId
      let newJoke := JsObj.set (JsObj.set newJoke0 "id" (JsVal.num id)) "timestamp" (JsVal.str ts)
      ({ allJokes := s.allJokes ++ [newJoke], nextJokeId := s.nextJokeId + 1 },
       { status := 201, body := RespBody.joke newJoke })

/-- `app.post("/jokes/reset", ...)`: `allJokes = [...originalJokesList]`,
success envelope; the counter is untouched. -/
def handleReset (s : ServerState) (originalJokesList : List JsObj) :
    ServerState × Response :=
  ({ s with allJokes := originalJokesList },
   { status := 200, body := RespBody.success "jokes list has been reset" })

/-- One client request, with the data the corresponding handler reads
from it (the clock string of a create, the sampled index of a random). -/
inductive Op where
  | listAll
  | getFirst
  | getById (idParam : Option String)
  | search (searchTerm : Option String)
  | random (choice : Nat)
  | create (body : Option JsObj) (ts : String)
  | deleteOne (idParam : Option String)
  | deleteAll
  | reset
  deriving DecidableEq, Repr

/-- The state after serving one request.  Read-only handlers (and a
search, whether it answers or throws) leave the state unchanged; the
mutating handlers are the ones embedded above. -/
def Op.apply (seed : List JsObj) (s : ServerState) : Op → ServerState
  | Op.listAll => s
  | Op.getFirst => s
  | Op.getById _ => s
  | Op.search _ => s
  | Op.random _ => s
  | Op.create body ts => (handleRequestForPOSTJoke s body ts).1
  | Op.deleteOne idParam => (handleDeleteJoke s idParam).1
  | Op.deleteAll => (handleDeleteAllJokes s).1
  | Op.reset => (handleReset s seed).1

/-- Runs a request sequence from a given state. -/
def runOpsFrom (seed : List JsObj) (s : ServerState) : List Op → ServerState
  | [] => s
  | op :: rest => runOpsFrom seed (Op.apply seed s op) rest

/-- Runs a request sequence from process start. -/
def runOps (seed : List JsObj) (ops : List Op) : ServerState :=
  runOpsFrom seed (initialState seed) ops

/-- The ids a single request assigns: a create with a present body
consumes `nextJokeId`; every other request assigns none. -/
def opAssignedIds (s : ServerState) : Op → List Int
  | Op.create (some _) _ => [s.nextJokeId]
  | _ => []

/-- The ids assigned by the creates of a request sequence, in order,
starting from state `s`. -/
def assignedIdsFrom (seed : List JsObj) (s : ServerState) : List Op → List Int
  | [] => []
  | op :: rest =>
      opAssignedIds s op ++ assignedIdsFrom seed (Op.apply seed s op) rest

/-- The ids assigned by the creates of a request sequence run from
process start. -/
def assignedIds (seed : List JsObj) (ops : List Op) : List Int :=
  assignedIdsFrom seed (initialState seed) ops

/-- The number of creates with a present body (each consumes one id). -/
def countCreates : List Op → Nat
  | [] => 0
  | Op.create (some _) _ :: rest => countCreates rest + 1
  | _ :: rest => countCreates rest

/-- A joke object carrying string `setup` and `punchline` fields — the
shape every Joke of the data model has, and the condition under which
the search filter cannot throw. -/
def JokeShaped (j : JsObj) : Prop :=
  (∃ u : String, JsObj.get j "setup" = some (JsVal.str u)) ∧
  (∃ u : String, JsObj.get j "punchline" = some (JsVal.str u))

/-- Every stored object is a well-shaped Joke. -/
def WellFormedStore (s : ServerState) : Prop :=
  ∀ j ∈ s.allJokes, JokeShaped j

/-- The pure matching criterion of the search, on well-shaped jokes:
the setup or the punchline contains the term as a case-sensitive
substring. -/
def jokeMatchesTerm (searchTerm : String) (j : JsObj) : Bool :=
  (match JsObj.get j "setup" with
   | some (JsVal.str u) => strContains u searchTerm
   | _ => false) ||
  (match JsObj.get j "punchline" with
   | some (JsVal.str u) => strContains u searchTerm
   | _ => false)

/-- The sequence of `id` property values of the stored jokes. -/
def storeIds (s : ServerState) : List (Option JsVal) :=
  s.allJokes.map (fun j => JsObj.get j "id")

/-- The object's `id` field holds an integer below `bound`. -/
def hasIdBelow (bound : Int) (j : JsObj) : Bool :=
  match JsObj.get j "id" with
  | some (JsVal.num n) => decide (n < bound)
  | _ => false

/-- The claimed precondition on the seed dataset: pairwise-distinct ids,
all integers below the counter seed 10000000. -/
def SeedOk (seed : List JsObj) : Prop :=
  (seed.map (fun j => JsObj.get j "id")).Nodup ∧
  ∀ j ∈ seed, hasIdBelow 10000000 j = true

/-- The inductive invariant of the store: distinct id values, every id
an integer below the counter, and the counter at least its seed. -/
def Inv (s : ServerState) : Prop :=
  (storeIds s).Nodup ∧
  (∀ j ∈ s.allJokes, hasIdBelow s.nextJokeId j = true) ∧
  10000000 ≤ s.nextJokeId

/-- The joke a successful create stores: the submitted body with the
`id` and `timestamp` properties assigned. -/
def storedJoke (s : ServerState) (b : JsObj) (ts : String) : JsObj :=
  JsObj.set (JsObj.set b "id" (JsVal.num s.nextJokeId)) "timestamp" (JsVal.str ts)

/-- The ids `[c, c + 1, ..., c + n - 1]` a run of `n` successful
creates hands out when the counter starts at `c`. -/
def expectedIds (c : Int) : Nat → List Int
  | 0 => []
  | n + 1 => c :: expectedIds (c + 1) n

/-- The example joke of the documented schema (used as a concrete seed
in witnesses). -/
def fishJoke : JsObj :=
  [("id", JsVal.num 1), ("type", JsVal.str "general"),
   ("setup", JsVal.str "What did the fish say when it hit the wall?"),
   ("punchline", JsVal.str "Dam.")]

end JokesApi

namespace JokesApi

theorem JsObj.get_set_self (o : JsObj) (k : String) (v : JsVal) :
    JsObj.get (JsObj.set o k v) k = some v := by
  induction o with
  | nil => simp [JsObj.set, JsObj.get]
  | cons p rest ih =>
      obtain ⟨k', v'⟩ := p
      by_cases h : k' = k
      · simp [JsObj.set, h, JsObj.get]
      · simp [JsObj.set, h, JsObj.get, ih]

theorem JsObj.get_set_ne (o : JsObj) (k k' : String) (v : JsVal) (h : k' ≠ k) :
    JsObj.get (JsObj.set o k v) k' = JsObj.get o k' := by
  induction o with
  | nil => simp [JsObj.set, JsObj.get, Ne.symm h]
  | cons p rest ih =>
      obtain ⟨k₀, v₀⟩ := p
      by_cases h₀ : k₀ = k
      · subst h₀
        simp [JsObj.set, JsObj.get, Ne.symm h]
      · simp only [JsObj.set, if_neg h₀, JsObj.get]
        by_cases h₁ : k₀ = k'
        · simp [h₁]
        · simp [h₁, ih]

theorem storedJoke_get_id (s : ServerState) (b : JsObj) (ts : String) :
    JsObj.get (storedJoke s b ts) "id" = some (JsVal.num s.nextJokeId) := by
  unfold storedJoke
  rw [JsObj.get_set_ne _ _ _ _ (by decide), JsObj.get_set_self]

theorem storedJoke_get_timestamp (s : ServerState) (b : JsObj) (ts : String) :
    JsObj.get (storedJoke s b ts) "timestamp" = some (JsVal.str ts) := by
  unfold storedJoke
  rw [JsObj.get_set_self]

theorem storedJoke_get_other (s : ServerState) (b : JsObj) (ts : String)
    (k : String) (h1 : k ≠ "id") (h2 : k ≠ "timestamp") :
    JsObj.get (storedJoke s b ts) k = JsObj.get b k := by
  unfold storedJoke
  rw [JsObj.get_set_ne _ _ _ _ h2, JsObj.get_set_ne _ _ _ _ h1]

theorem handleRequestForPOSTJoke_some (s : ServerState) (b : JsObj) (ts : String) :
    handleRequestForPOSTJoke s (some b) ts =
      ({ allJokes := s.allJokes ++ [storedJoke s b ts],
         nextJokeId := s.nextJokeId + 1 },
       { status := 201, body := RespBody.joke (storedJoke s b ts) }) := rfl

/-- Claim C2: create answers 400 with the store untouched when the body
is null/undefined; for any present body object (no field validation) it
assigns the counter value as id, post-increments the counter, assigns
the timestamp string, appends the joke at the end, and answers the
stored joke with status 201. -/
theorem C2_create_contract (s : ServerState) (ts : String) :
    (handleRequestForPOSTJoke s none ts =
      (s, { status := 400,
            body := RespBody.text "where is your joke! it\x27s not in the body, i think" })) ∧
    (∀ b : JsObj,
      (handleRequestForPOSTJoke s (some b) ts).2.status = 201 ∧
      (handleRequestForPOSTJoke s (some b) ts).1.allJokes =
        s.allJokes ++ [storedJoke s b ts] ∧
      (handleRequestForPOSTJoke s (some b) ts).1.nextJokeId = s.nextJokeId + 1 ∧
      (handleRequestForPOSTJoke s (some b) ts).2.body =
        RespBody.joke (storedJoke s b ts) ∧
      JsObj.get (storedJoke s b ts) "id" = some (JsVal.num s.nextJokeId) ∧
      JsObj.get (storedJoke s b ts) "timestamp" = some (JsVal.str ts)) := by
  refine ⟨rfl, fun b => ⟨rfl, rfl, rfl, rfl, storedJoke_get_id s b ts,
    storedJoke_get_timestamp s b ts⟩⟩

/-- Claim C10: a successful create stores, and answers with status 201,
exactly the submitted body with the `id` and `timestamp` fields set:
every other field — also one outside the documented schema — keeps the
value the client sent, and the response body is the element appended to
the store. -/
theorem C10_create_frame (s : ServerState) (b : JsObj) (ts : String) :
    (handleRequestForPOSTJoke s (some b) ts).2 =
      { status := 201, body := RespBody.joke (storedJoke s b ts) } ∧
    (handleRequestForPOSTJoke s (some b) ts).1.allJokes =
      s.allJokes ++ [storedJoke s b ts] ∧
    JsObj.get (storedJoke s b ts) "id" = some (JsVal.num s.nextJokeId) ∧
    JsObj.get (storedJoke s b ts) "timestamp" = some (JsVal.str ts) ∧
    (∀ k : String, k ≠ "id" → k ≠ "timestamp" →
      JsObj.get (storedJoke s b ts) k = JsObj.get b k) := by
  exact ⟨rfl, rfl, storedJoke_get_id s b ts, storedJoke_get_timestamp s b ts,
    fun k h1 h2 => storedJoke_get_other s b ts k h1 h2⟩

theorem C10_witness :
    JsObj.get
      (storedJoke { allJokes := [], nextJokeId := 10000000 }
        [("setup", JsVal.str "s"), ("extra", JsVal.num 7)] "T") "extra" =
      some (JsVal.num 7) :=
  (C10_create_frame { allJokes := [], nextJokeId := 10000000 }
      [("setup", JsVal.str "s"), ("extra", JsVal.num 7)] "T").2.2.2.2
    "extra" (by decide) (by decide)

/-- Claim C7: reset always answers 200 with the success envelope,
replaces the store contents with the seed dataset — whatever requests
ran before — and leaves the id counter where it was, so a list
immediately after reset answers exactly the seed in order. -/
theorem C7_reset_restores_seed (seed : List JsObj) (ops : List Op) :
    (handleReset (runOps seed ops) seed).2 =
      { status := 200, body := RespBody.success "jokes list has been reset" } ∧
    (handleReset (runOps seed ops) seed).1.allJokes = seed ∧
    (handleReset (runOps seed ops) seed).1.nextJokeId =
      (runOps seed ops).nextJokeId ∧
    handleGetAllJokes (handleReset (runOps seed ops) seed).1 =
      { status := 200, body := RespBody.jokeList seed } :=
  ⟨rfl, rfl, rfl, rfl⟩

/-- Claim C8, counterexample: in the `src/index.js` variant the
first-joke handler answers an empty store with status 200 and the
one-element array `[null]`, not with 404. -/
theorem C8_counterexample :
    handleRequestForFirstJoke { allJokes := [], nextJokeId := 10000000 } =
      { status := 200, body := RespBody.singletonArray none } ∧
    (handleRequestForFirstJoke { allJokes := [], nextJokeId := 10000000 }).status ≠ 404 :=
  ⟨rfl, by decide⟩

/-- Claim C8, amended: the main variant's `handleGetFirstJoke` answers
the first stored joke with 200 when the store is non-empty and a 404
failure envelope when it is empty; the `src/index.js` variant's
`handleRequestForFirstJoke` always answers 200 with a one-element array
holding the first joke, or holding null when the store is empty. -/
theorem C8_get_first (s : ServerState) :
    (0 < s.allJokes.length →
      handleGetFirstJoke s =
        { status := 200, body := RespBody.joke (s.allJokes.getD 0 []) }) ∧
    (s.allJokes.length = 0 →
      handleGetFirstJoke s =
        { status := 404, body := RespBody.failure "no jokes in database" }) ∧
    handleRequestForFirstJoke s =
      { status := 200, body := RespBody.singletonArray s.allJokes.head? } := by
  refine ⟨fun h => ?_, fun h => ?_, rfl⟩
  · simp [handleGetFirstJoke, h]
  · simp [handleGetFirstJoke, h]

theorem C8_witness :
    handleGetFirstJoke { allJokes := [], nextJokeId := 10000000 } =
      { status := 404, body := RespBody.failure "no jokes in database" } :=
  (C8_get_first { allJokes := [], nextJokeId := 10000000 }).2.1 rfl

theorem findJS_eq_none (p : JsObj → Bool) (l : List JsObj) :
    findJS p l = none ↔ ∀ j ∈ l, p j = false := by
  induction l with
  | nil => simp [findJS]
  | cons j rest ih =>
      cases h : p j with
      | true => simp [findJS, h]
      | false => simp [findJS, h, ih]

theorem findJS_eq_some (p : JsObj → Bool) (l : List JsObj) (j : JsObj)
    (h : findJS p l = some j) : j ∈ l ∧ p j = true := by
  induction l with
  | nil => simp [findJS] at h
  | cons x rest ih =>
      cases hx : p x with
      | true =>
          rw [findJS, if_pos hx] at h
          cases h
          exact ⟨by simp, hx⟩
      | false =>
          rw [findJS, if_neg (by simp [hx])] at h
          obtain ⟨h1, h2⟩ := ih h
          exact ⟨by simp [h1], h2⟩

/-- Claim C3: get-by-id answers 400 exactly when `parseInt` yields NaN
on the id string; on a parsed id it answers 404 — with the sought id in
the failure body — precisely when no stored joke's `id` strictly equals
it, and otherwise answers the found joke with 200. -/
theorem C3_get_by_id (s : ServerState) (idStr : String) :
    (parseInt idStr = none →
      handleGetJokeById s (some idStr) =
        { status := 400, body := RespBody.failure "missing id to search for." }) ∧
    (∀ n : Int, parseInt idStr = some n →
      ((∀ j ∈ s.allJokes, jokeIdMatches (some n) j = false) →
        handleGetJokeById s (some idStr) =
          { status := 404,
            body := RespBody.failureWithId "can\x27t find joke with that id." n }) ∧
      ((handleGetJokeById s (some idStr)).status = 404 →
        ∀ j ∈ s.allJokes, jokeIdMatches (some n) j = false) ∧
      (∀ j, findJS (jokeIdMatches (some n)) s.allJokes = some j →
        j ∈ s.allJokes ∧ jokeIdMatches (some n) j = true ∧
        handleGetJokeById s (some idStr) =
          { status := 200, body := RespBody.joke j })) := by
  constructor
  · intro h
    simp [handleGetJokeById, h]
  · intro n hn
    refine ⟨?_, ?_, ?_⟩
    · intro hall
      have hf : findJS (jokeIdMatches (some n)) s.allJokes = none :=
        (findJS_eq_none _ _).mpr hall
      simp [handleGetJokeById, hn, hf]
    · intro h404
      cases hf : findJS (jokeIdMatches (some n)) s.allJokes with
      | none => exact (findJS_eq_none _ _).mp hf
      | some j =>
          exfalso
          simp [handleGetJokeById, hn, hf] at h404
    · intro j hf
      obtain ⟨h1, h2⟩ := findJS_eq_some _ _ _ hf
      exact ⟨h1, h2, by simp [handleGetJokeById, hn, hf]⟩

theorem C3_witness :
    handleGetJokeById { allJokes := [fishJoke], nextJokeId := 10000000 } (some "1") =
      { status := 200, body := RespBody.joke fishJoke } :=
  (((C3_get_by_id { allJokes := [fishJoke], nextJokeId := 10000000 } "1").2 1
      (by decide)).2.2 fishJoke (by decide)).2.2

/-- Claim C4: a create whose body is the empty object is accepted with
201 (no field validation), after which the search handler's filter
throws a TypeError (`undefined.includes`) instead of completing with a
response — the exception escapes the handler, so not every malformed
input surfaces as a 4xx response. -/
theorem C4_search_throws_after_permissive_create :
    ((handleRequestForPOSTJoke (initialState []) (some []) "Wed").2.status = 201) ∧
    handleJokesSearch ((handleRequestForPOSTJoke (initialState []) (some []) "Wed").1)
        (some "a") = Except.error () :=
  ⟨rfl, rfl⟩

theorem findIndexJS_eq_none (p : JsObj → Bool) (l : List JsObj) :
    findIndexJS p l = none ↔ ∀ j ∈ l, p j = false := by
  induction l with
  | nil => simp [findIndexJS]
  | cons j rest ih =>
      cases h : p j with
      | true => simp [findIndexJS, h]
      | false => simp [findIndexJS, h, ih]

theorem findIndexJS_first_match (p : JsObj → Bool) (l1 : List JsObj) (j : JsObj)
    (l2 : List JsObj) (h1 : ∀ y ∈ l1, p y = false) (h2 : p j = true) :
    findIndexJS p (l1 ++ j :: l2) = some l1.length := by
  induction l1 with
  | nil => simp [findIndexJS, h2]
  | cons x rest ih =>
      have hx : p x = false := h1 x (by simp)
      have hr := ih (fun y hy => h1 y (by simp [hy]))
      simp [findIndexJS, hx, hr]

theorem eraseIdx_append_length (l1 : List JsObj) (j : JsObj) (l2 : List JsObj) :
    (l1 ++ j :: l2).eraseIdx l1.length = l1 ++ l2 := by
  induction l1 with
  | nil => simp
  | cons x rest ih => simp [List.eraseIdx, ih]

theorem getElem_append_length (l1 : List JsObj) (j : JsObj) (l2 : List JsObj)
    (h : l1.length < (l1 ++ j :: l2).length) :
    (l1 ++ j :: l2)[l1.length] = j := by
  induction l1 with
  | nil => simp
  | cons x rest ih => simpa using ih (by simp)

/-- Claim C6: delete-by-id answers 404 exactly when the id parameter is
missing or no stored joke's `id` strictly equals the parsed id, leaving
the store untouched in that case; otherwise it splices out exactly the
first matching element, keeping every other element in relative order,
and answers the removed joke with 200. -/
theorem C6_delete_by_id (s : ServerState) (idStr : String) :
    (handleDeleteJoke s none =
      (s, { status := 404, body := RespBody.text "missing id" })) ∧
    ((∀ j ∈ s.allJokes, jokeIdMatches (parseInt idStr) j = false) →
      handleDeleteJoke s (some idStr) =
        (s, { status := 404, body := RespBody.failure "joke not found" })) ∧
    ((handleDeleteJoke s (some idStr)).2.status = 404 →
      (handleDeleteJoke s (some idStr)).1 = s ∧
      ∀ j ∈ s.allJokes, jokeIdMatches (parseInt idStr) j = false) ∧
    (∀ l1 j l2, s.allJokes = l1 ++ j :: l2 →
      (∀ y ∈ l1, jokeIdMatches (parseInt idStr) y = false) →
      jokeIdMatches (parseInt idStr) j = true →
      handleDeleteJoke s (some idStr) =
        ({ s with allJokes := l1 ++ l2 },
         { status := 200, body := RespBody.joke j })) := by
  refine ⟨rfl, ?_, ?_, ?_⟩
  · intro hall
    have hf : findIndexJS (jokeIdMatches (parseInt idStr)) s.allJokes = none :=
      (findIndexJS_eq_none _ _).mpr hall
    simp [handleDeleteJoke, hf]
  · intro h404
    cases hf : findIndexJS (jokeIdMatches (parseInt idStr)) s.allJokes with
    | none =>
        exact ⟨by simp [handleDeleteJoke, hf], (findIndexJS_eq_none _ _).mp hf⟩
    | some i =>
        exfalso
        simp [handleDeleteJoke, hf] at h404
  · intro l1 j l2 hsplit hl1 hj
    have hf := findIndexJS_first_match (jokeIdMatches (parseInt idStr)) l1 j l2 hl1 hj
    simp [handleDeleteJoke, hsplit, hf, eraseIdx_append_length, getElem_append_length]

theorem C6_witness :
    handleDeleteJoke { allJokes := [fishJoke], nextJokeId := 10000000 } (some "1") =
      ({ allJokes := [], nextJokeId := 10000000 },
       { status := 200, body := RespBody.joke fishJoke }) := by
  have h := (C6_delete_by_id { allJokes := [fishJoke], nextJokeId := 10000000 } "1").2.2.2
      [] fishJoke [] rfl (by simp) (by decide)
  simpa using h

theorem jokeSearchTest_shaped (t : String) (j : JsObj) (h : JokeShaped j) :
    jokeSearchTest t j = Except.ok (jokeMatchesTerm t j) := by
  obtain ⟨⟨u, hu⟩, v, hv⟩ := h
  unfold jokeSearchTest jokeMatchesTerm
  rw [hu, hv]
  cases hc : strContains u t <;> simp [hc]

theorem filterJokes_ok (t : String) (l : List JsObj) (h : ∀ j ∈ l, JokeShaped j) :
    filterJokes t l = Except.ok (l.filter (jokeMatchesTerm t)) := by
  induction l with
  | nil => rfl
  | cons j rest ih =>
      have hj := jokeSearchTest_shaped t j (h j (by simp))
      have hrest := ih (fun x hx => h x (by simp [hx]))
      rw [filterJokes, hj, hrest]
      cases hb : jokeMatchesTerm t j <;>
        simp [List.filter_cons, hb, Bind.bind, Except.bind, Pure.pure, Except.pure]

/-- Claim C5: search answers 400 exactly when the `searchTerm` query
value is absent or empty; otherwise (on a store of well-shaped Jokes)
it answers 200 with precisely the stored jokes whose setup or punchline
contains the term as a case-sensitive substring, in store order — the
empty array included, never an error. -/
theorem C5_search (s : ServerState) (hwf : WellFormedStore s) :
    (handleJokesSearch s none =
      Except.ok
        { status := 400, body := RespBody.text "missing searchTerm query parameter" }) ∧
    (handleJokesSearch s (some "") =
      Except.ok
        { status := 400, body := RespBody.text "missing searchTerm query parameter" }) ∧
    (∀ t : String, t ≠ "" →
      handleJokesSearch s (some t) =
        Except.ok
          { status := 200,
            body := RespBody.jokeList (s.allJokes.filter (jokeMatchesTerm t)) }) := by
  refine ⟨rfl, rfl, fun t ht => ?_⟩
  simp only [handleJokesSearch, if_neg ht, filterJokes_ok t s.allJokes hwf]
  rfl

theorem C5_witness :
    handleJokesSearch { allJokes := [fishJoke], nextJokeId := 10000000 } (some "Dam") =
      Except.ok { status := 200, body := RespBody.jokeList [fishJoke] } := by
  have h := (C5_search { allJokes := [fishJoke], nextJokeId := 10000000 }
      (by
        intro j hj
        simp only [List.mem_singleton] at hj
        subst hj
        exact ⟨⟨_, rfl⟩, _, rfl⟩)).2.2 "Dam" (by decide)
  exact h.trans rfl

theorem handleDeleteJoke_fst_nextJokeId (s : ServerState) (idParam : Option String) :
    (handleDeleteJoke s idParam).1.nextJokeId = s.nextJokeId := by
  unfold handleDeleteJoke
  cases idParam with
  | none => rfl
  | some idStr =>
      cases hf : findIndexJS (jokeIdMatches (parseInt idStr)) s.allJokes <;> simp [hf]

theorem apply_nextJokeId (seed : List JsObj) (s : ServerState) (op : Op) :
    (Op.apply seed s op).nextJokeId =
      s.nextJokeId + (opAssignedIds s op).length := by
  cases op with
  | listAll => simp [Op.apply, opAssignedIds]
  | getFirst => simp [Op.apply, opAssignedIds]
  | getById idParam => simp [Op.apply, opAssignedIds]
  | search t => simp [Op.apply, opAssignedIds]
  | random c => simp [Op.apply, opAssignedIds]
  | create body ts =>
      cases body with
      | none => simp [Op.apply, opAssignedIds, handleRequestForPOSTJoke]
      | some b => simp [Op.apply, opAssignedIds, handleRequestForPOSTJoke]
  | deleteOne idParam =>
      simp [Op.apply, opAssignedIds, handleDeleteJoke_fst_nextJokeId]
  | deleteAll => simp [Op.apply, opAssignedIds, handleDeleteAllJokes]
  | reset => simp [Op.apply, opAssignedIds, handleReset]

theorem countCreates_cons_eq (op : Op) (rest : List Op) (s : ServerState) :
    countCreates (op :: rest) = (opAssignedIds s op).length + countCreates rest := by
  cases op with
  | create body ts => cases body <;> simp [countCreates, opAssignedIds, Nat.add_comm]
  | listAll => simp [countCreates, opAssignedIds]
  | getFirst => simp [countCreates, opAssignedIds]
  | getById idParam => simp [countCreates, opAssignedIds]
  | search t => simp [countCreates, opAssignedIds]
  | random c => simp [countCreates, opAssignedIds]
  | deleteOne idParam => simp [countCreates, opAssignedIds]
  | deleteAll => simp [countCreates, opAssignedIds]
  | reset => simp [countCreates, opAssignedIds]

theorem runOpsFrom_nextJokeId (seed : List JsObj) :
    ∀ (ops : List Op) (s : ServerState),
      (runOpsFrom seed s ops).nextJokeId = s.nextJokeId + countCreates ops := by
  intro ops
  induction ops with
  | nil => intro s; simp [runOpsFrom, countCreates]
  | cons op rest ih =>
      intro s
      rw [runOpsFrom, ih, apply_nextJokeId, countCreates_cons_eq op rest s]
      push_cast
      ring

theorem assignedIdsFrom_eq (seed : List JsObj) :
    ∀ (ops : List Op) (s : ServerState),
      assignedIdsFrom seed s ops = expectedIds s.nextJokeId (countCreates ops) := by
  intro ops
  induction ops with
  | nil => intro s; rfl
  | cons op rest ih =>
      intro s
      rw [assignedIdsFrom, ih]
      cases op with
      | create body ts =>
          cases body with
          | none =>
              simp [opAssignedIds, countCreates, Op.apply, handleRequestForPOSTJoke]
          | some b =>
              simp [opAssignedIds, countCreates, Op.apply, handleRequestForPOSTJoke,
                expectedIds]
      | listAll => simp [opAssignedIds, countCreates, Op.apply]
      | getFirst => simp [opAssignedIds, countCreates, Op.apply]
      | getById idParam => simp [opAssignedIds, countCreates, Op.apply]
      | search t => simp [opAssignedIds, countCreates, Op.apply]
      | random c => simp [opAssignedIds, countCreates, Op.apply]
      | deleteOne idParam =>
          simp [opAssignedIds, countCreates, Op.apply, handleDeleteJoke_fst_nextJokeId]
      | deleteAll => simp [opAssignedIds, countCreates, Op.apply, handleDeleteAllJokes]
      | reset => simp [opAssignedIds, countCreates, Op.apply, handleReset]

theorem mem_expectedIds (c : Int) (n : Nat) : ∀ i ∈ expectedIds c n, c ≤ i := by
  induction n generalizing c with
  | zero => simp [expectedIds]
  | succ m ih =>
      intro i hi
      rw [expectedIds] at hi
      rcases List.mem_cons.mp hi with h | h
      · omega
      · have := ih (c + 1) i h
        omega

theorem pairwise_expectedIds (c : Int) (n : Nat) :
    List.Pairwise (· < ·) (expectedIds c n) := by
  induction n generalizing c with
  | zero => simp [expectedIds]
  | succ m ih =>
      rw [expectedIds]
      refine List.Pairwise.cons ?_ (ih (c + 1))
      intro i hi
      have := mem_expectedIds (c + 1) m i hi
      omega

/-- Claim C1: over any request sequence of one process lifetime, the
ids handed out by successive creates are exactly the consecutive run
starting at 10000000 — strictly increasing, never repeated — and the
counter, which delete-one, delete-all and reset leave alone, ends at
10000000 plus the number of successful creates. -/
theorem C1_assigned_ids (seed : List JsObj) (ops : List Op) :
    assignedIds seed ops = expectedIds 10000000 (countCreates ops) ∧
    List.Pairwise (· < ·) (assignedIds seed ops) ∧
    List.Chain' (· < ·) (assignedIds seed ops) ∧
    (assignedIds seed ops).Nodup ∧
    (∀ i ∈ assignedIds seed ops, 10000000 ≤ i) ∧
    (runOps seed ops).nextJokeId = 10000000 + countCreates ops := by
  have h1 : assignedIds seed ops = expectedIds 10000000 (countCreates ops) := by
    unfold assignedIds
    rw [assignedIdsFrom_eq]
    rfl
  have hp : List.Pairwise (· < ·) (assignedIds seed ops) := by
    rw [h1]
    exact pairwise_expectedIds _ _
  refine ⟨h1, hp, hp.chain', hp.imp (fun h => ne_of_lt h), ?_, ?_⟩
  · rw [h1]
    exact mem_expectedIds _ _
  · unfold runOps
    rw [runOpsFrom_nextJokeId]
    rfl

theorem hasIdBelow_iff (bound : Int) (j : JsObj) :
    hasIdBelow bound j = true ↔
      ∃ n : Int, JsObj.get j "id" = some (JsVal.num n) ∧ n < bound := by
  unfold hasIdBelow
  cases h : JsObj.get j "id" with
  | none => simp
  | some v =>
      cases v with
      | num n => simp
      | str u => simp

theorem hasIdBelow_mono (b b' : Int) (j : JsObj) (hb : b ≤ b')
    (h : hasIdBelow b j = true) : hasIdBelow b' j = true := by
  rw [hasIdBelow_iff] at h ⊢
  obtain ⟨n, h1, h2⟩ := h
  exact ⟨n, h1, by omega⟩

theorem Inv_apply (seed : List JsObj) (hseed : SeedOk seed) (s : ServerState)
    (hinv : Inv s) (op : Op) : Inv (Op.apply seed s op) := by
  obtain ⟨hnd, hbelow, hge⟩ := hinv
  cases op with
  | listAll => exact ⟨hnd, hbelow, hge⟩
  | getFirst => exact ⟨hnd, hbelow, hge⟩
  | getById idParam => exact ⟨hnd, hbelow, hge⟩
  | search t => exact ⟨hnd, hbelow, hge⟩
  | random c => exact ⟨hnd, hbelow, hge⟩
  | create body ts =>
      cases body with
      | none => exact ⟨hnd, hbelow, hge⟩
      | some b =>
          show Inv { allJokes := s.allJokes ++ [storedJoke s b ts],
                     nextJokeId := s.nextJokeId + 1 }
          refine ⟨?_, ?_, show (10000000 : Int) ≤ s.nextJokeId + 1 by omega⟩
          · unfold storeIds at hnd ⊢
            simp only [List.map_append, List.map_cons, List.map_nil]
            rw [List.nodup_append]
            refine ⟨hnd, List.nodup_singleton _, ?_⟩
            intro a ha hmem
            simp only [List.mem_singleton] at hmem
            obtain ⟨j, hj, hja⟩ := List.mem_map.mp ha
            obtain ⟨n, hn1, hn2⟩ := (hasIdBelow_iff _ _).mp (hbelow j hj)
            rw [hmem, storedJoke_get_id, hn1] at hja
            simp only [Option.some.injEq, JsVal.num.injEq] at hja
            omega
          · intro j hj
            rcases List.mem_append.mp hj with h | h
            · exact hasIdBelow_mono s.nextJokeId (s.nextJokeId + 1) j (by omega)
                (hbelow j h)
            · simp only [List.mem_singleton] at h
              subst h
              rw [hasIdBelow_iff]
              exact ⟨s.nextJokeId, storedJoke_get_id s b ts,
                show s.nextJokeId < s.nextJokeId + 1 by omega⟩
  | deleteOne idParam =>
      cases idParam with
      | none => exact ⟨hnd, hbelow, hge⟩
      | some idStr =>
          show Inv (handleDeleteJoke s (some idStr)).1
          unfold handleDeleteJoke
          cases hf : findIndexJS (jokeIdMatches (parseInt idStr)) s.allJokes with
          | none =>
              simp only [hf]
              exact ⟨hnd, hbelow, hge⟩
          | some i =>
              simp only [hf]
              refine ⟨?_, ?_, hge⟩
              · unfold storeIds at hnd ⊢
                exact List.Nodup.sublist
                  ((List.eraseIdx_sublist s.allJokes i).map _) hnd
              · intro j hj
                exact hbelow j ((List.eraseIdx_sublist s.allJokes i).subset hj)
  | deleteAll =>
      refine ⟨by simp [storeIds, Op.apply, handleDeleteAllJokes], ?_, hge⟩
      intro j hj
      simp [Op.apply, handleDeleteAllJokes] at hj
  | reset =>
      refine ⟨hseed.1, ?_, hge⟩
      intro j hj
      exact hasIdBelow_mono _ _ j hge (hseed.2 j hj)

theorem Inv_runOpsFrom (seed : List JsObj) (hseed : SeedOk seed) :
    ∀ (ops : List Op) (s : ServerState), Inv s → Inv (runOpsFrom seed s ops) := by
  intro ops
  induction ops with
  | nil => intro s h; exact h
  | cons op rest ih =>
      intro s h
      exact ih (Op.apply seed s op) (Inv_apply seed hseed s h op)

/-- Claim C9: when the seed dataset has pairwise-distinct integer ids
all below 10000000, every state reachable by any request sequence —
creates, deletes, resets and reads in any order — has pairwise-distinct
stored id values. -/
theorem C9_unique_ids (seed : List JsObj) (hseed : SeedOk seed) (ops : List Op) :
    (storeIds (runOps seed ops)).Nodup := by
  have hinit : Inv (initialState seed) :=
    ⟨hseed.1, fun j hj => hseed.2 j hj, le_refl _⟩
  exact (Inv_runOpsFrom seed hseed ops (initialState seed) hinit).1

theorem C9_witness :
    (storeIds (runOps [fishJoke]
        [Op.create (some []) "T", Op.deleteAll, Op.reset,
         Op.create (some [("setup", JsVal.str "s")]) "U"])).Nodup :=
  C9_unique_ids [fishJoke] ⟨by decide, by decide⟩ _

end JokesApi
